import Mathlib

/-!
Verification of the preCICE communication/coordination core against its
specification.

The socket send queue (src/com/SocketSendQueue.cpp), the scale-by-area
action (src/action/ScaleByAreaAction.cpp) and the Eigen append helpers
(src/unnamed/part_000) are embedded directly from the C++ sources.
The coupling-scheme state machine, the implicit-iteration loop, the
checkpoint mechanism and the M2N data coordinator are not part of the
provided sources (only the test configuration bug.xml is); those are
modelled from the specification, as marked in their doc comments.
-/

namespace SendQueue

/-- A queued send request, mirroring SendQueue::SendItem
(socket handle, data buffer, completion callback); the callback is
opaque, so items are identified by their fields. -/
structure SendItem where
  sock : Nat
  data : List Nat
  cb : Nat
deriving DecidableEq

/-- Observable state of one SendQueue instance: the deque `_itemQueue`,
the asynchronous writes that have been initiated and have not completed
yet, and the callbacks invoked so far, in invocation order. -/
structure QState where
  itemQueue : List SendItem
  inFlight : List SendItem
  fired : List SendItem
deriving DecidableEq

/-- Execution faults of the embedded code: locking the non-recursive
`_queueMutex` on a thread that already holds it (std::mutex self-lock:
the thread never proceeds), and a completion handler invoked with no
write in flight (impossible for asio, excluded as a precondition). -/
inductive ExecError
  | relockedHeldMutex
  | spuriousCompletion
deriving DecidableEq

/-- SendQueue::process (SocketSendQueue.cpp lines 16-29).  The body first
constructs `std::lock_guard lock(_queueMutex)`; `mutexHeld` says whether
the calling thread already holds `_queueMutex`, in which case the lock
acquisition self-deadlocks.  Otherwise: if the deque is empty, return;
else pop the front item and initiate `asio::async_write` for it. -/
def process (mutexHeld : Bool) (s : QState) : Except ExecError QState :=
  if mutexHeld then
    Except.error ExecError.relockedHeldMutex
  else
    match s.itemQueue with
    | [] => Except.ok s
    | item :: rest =>
        Except.ok { s with itemQueue := rest, inFlight := s.inFlight ++ [item] }

/-- SendQueue::push (SocketSendQueue.cpp lines 8-15): acquire
`_queueMutex` (the caller does not hold it), record whether the deque was
empty, push the item at the back, and if the deque was empty call
`process()` while still holding the lock. -/
def push (s : QState) (item : SendItem) : Except ExecError QState :=
  let empty := s.itemQueue.isEmpty
  let s1 : QState := { s with itemQueue := s.itemQueue ++ [item] }
  if empty then process true s1 else Except.ok s1

/-- The completion lambda passed to `asio::async_write`
(SocketSendQueue.cpp lines 25-28), run on the I/O context with no lock
held, for the oldest in-flight write.  Its two parameters — the
`boost::system::error_code` and the byte count — are both ignored by the
body, which runs `item.callback()` and then `this->process()`. -/
def completionHandler (ec : Nat) (bytes : Nat) (s : QState) :
    Except ExecError QState :=
  match s.inFlight with
  | [] => Except.error ExecError.spuriousCompletion
  | item :: rest =>
      process false { s with inFlight := rest, fired := s.fired ++ [item] }

/-- A freshly constructed SendQueue: empty deque, nothing in flight,
no callback fired. -/
def initial : QState :=
  { itemQueue := [], inFlight := [], fired := [] }

/-- States reachable from a fresh queue by successfully completed calls:
pushes, and asio completion-handler invocations. -/
inductive Reach : QState → Prop
  | init : Reach initial
  | pushStep (s t : QState) (item : SendItem) :
      Reach s → push s item = Except.ok t → Reach t
  | completeStep (s t : QState) (ec bytes : Nat) :
      Reach s → completionHandler ec bytes s = Except.ok t → Reach t

end SendQueue

/-- C1: the claim says completion callbacks fire in push order and at
most one write is in flight; on the code as written, the first push to a
fresh queue self-deadlocks inside `process` before initiating any write,
so no state reachable from a fresh queue ever has a write in flight or a
callback fired — in particular no completion callback ever fires, and
pushed items are never sent. -/
theorem sendQueue_nothing_ever_fires (s : SendQueue.QState)
    (h : SendQueue.Reach s) : s.fired = [] ∧ s.inFlight = [] := by
  induction h with
  | init => exact ⟨rfl, rfl⟩
  | pushStep s t item hs hstep ih =>
      by_cases hq : s.itemQueue.isEmpty
      · simp only [SendQueue.push, hq, if_true, SendQueue.process] at hstep
        exact Except.noConfusion hstep
      · simp only [SendQueue.push, hq, if_false] at hstep
        cases hstep
        exact ih
  | completeStep s t ec bytes hs hstep ih =>
      rcases ih with ⟨hf, hi⟩
      simp only [SendQueue.completionHandler, hi] at hstep
      exact Except.noConfusion hstep

/-- Witness for C1 at the initial state. -/
theorem sendQueue_nothing_ever_fires_witness :
    SendQueue.initial.fired = [] ∧ SendQueue.initial.inFlight = [] :=
  sendQueue_nothing_ever_fires SendQueue.initial SendQueue.Reach.init

/-- C2: the claim says no call path of push or process re-acquires the
held non-recursive queue mutex; in the code, push into an empty queue
holds `_queueMutex` and calls `process()`, whose `lock_guard` re-locks
the same mutex on the same thread — the call self-deadlocks. -/
theorem sendQueue_push_empty_relocks_mutex :
    SendQueue.push SendQueue.initial { sock := 0, data := [42], cb := 0 } =
      Except.error SendQueue.ExecError.relockedHeldMutex := rfl

namespace SendQueue

/-- A concrete state with one write in flight (item with callback id 5)
and one further item queued (callback id 7). -/
def exampleState : QState :=
  { itemQueue := [{ sock := 0, data := [1], cb := 7 }]
    inFlight := [{ sock := 0, data := [0], cb := 5 }]
    fired := [] }

end SendQueue

/-- C3 counterexample: completing the in-flight write with a transport
error (error code 1) produces exactly the same queue behaviour as
completing it successfully (error code 0) — the completion lambda drops
the `error_code`, and the callback, of type `void()`, can receive no
failure; so no failure is delivered to the item's completion callback. -/
theorem sendQueue_error_code_ignored :
    SendQueue.completionHandler 1 0 SendQueue.exampleState =
        SendQueue.completionHandler 0 4 SendQueue.exampleState ∧
      SendQueue.completionHandler 1 0 SendQueue.exampleState =
        Except.ok
          { itemQueue := []
            inFlight := [{ sock := 0, data := [1], cb := 7 }]
            fired := [{ sock := 0, data := [0], cb := 5 }] } :=
  ⟨rfl, rfl⟩

/-- C3 amended: when a write completes — with a transport error or not —
the completion handler behaves identically regardless of the error code:
it invokes exactly the completed item's callback (which carries no
failure information), and it then dispatches the next queued item, so
every subsequently queued item continues to be dispatched and completed. -/
theorem sendQueue_error_completion_drains (ec bytes : Nat)
    (s : SendQueue.QState) (item : SendQueue.SendItem)
    (rest : List SendQueue.SendItem) (h : s.inFlight = item :: rest) :
    SendQueue.completionHandler ec bytes s =
        SendQueue.completionHandler 0 0 s ∧
      SendQueue.completionHandler ec bytes s =
        Except.ok
          { itemQueue := s.itemQueue.drop 1
            inFlight := rest ++ s.itemQueue.take 1
            fired := s.fired ++ [item] } := by
  cases s with
  | mk q f fr =>
      simp only at h
      subst h
      cases q with
      | nil =>
          constructor
          · rfl
          · simp [SendQueue.completionHandler, SendQueue.process]
      | cons a as =>
          constructor
          · rfl
          · simp [SendQueue.completionHandler, SendQueue.process]

/-- Witness for C3 amended at the concrete example state. -/
theorem sendQueue_error_completion_drains_witness :
    SendQueue.completionHandler 1 0 SendQueue.exampleState =
        SendQueue.completionHandler 0 0 SendQueue.exampleState ∧
      SendQueue.completionHandler 1 0 SendQueue.exampleState =
        Except.ok
          { itemQueue := SendQueue.exampleState.itemQueue.drop 1
            inFlight := [] ++ SendQueue.exampleState.itemQueue.take 1
            fired := SendQueue.exampleState.fired ++
              [{ sock := 0, data := [0], cb := 5 }] } :=
  sendQueue_error_completion_drains 1 0 SendQueue.exampleState
    { sock := 0, data := [0], cb := 5 } [] rfl

/-- The element-assignment loop shared by the two append helpers in
src/unnamed/part_000: iteration i of the C++ loop executes
`dst(off + i) = src(i)`, rendered sequentially. -/
def writeFrom {α : Type} : List α → Nat → List α → List α
  | dst, _, [] => dst
  | dst, off, x :: xs => writeFrom (dst.set off x) (off + 1) xs

theorem set_at_length {α : Type} (pre : List α) (b : α) (suf : List α)
    (x : α) : (pre ++ b :: suf).set pre.length x = pre ++ x :: suf := by
  induction pre with
  | nil => rfl
  | cons a as ih =>
      simp only [List.cons_append, List.length_cons, List.set_cons_succ, ih]

theorem writeFrom_append {α : Type} (src : List α) :
    ∀ pre junk tail : List α, junk.length = src.length →
      writeFrom (pre ++ junk ++ tail) pre.length src = pre ++ src ++ tail := by
  induction src with
  | nil =>
      intro pre junk tail h
      have hj : junk = [] := List.length_eq_zero.mp h
      subst hj
      rfl
  | cons x xs ih =>
      intro pre junk tail h
      cases junk with
      | nil => simp at h
      | cons j js =>
          simp only [List.length_cons, Nat.succ.injEq] at h
          have hstep : (pre ++ (j :: js) ++ tail).set pre.length x =
              (pre ++ [x]) ++ js ++ tail := by
            rw [List.append_assoc pre (j :: js) tail]
            rw [show (j :: js) ++ tail = j :: (js ++ tail) from rfl]
            rw [set_at_length pre j (js ++ tail) x]
            simp [List.append_assoc]
          have hlen : pre.length + 1 = (pre ++ [x]).length := by
            simp
          calc writeFrom (pre ++ (j :: js) ++ tail) pre.length (x :: xs)
              = writeFrom ((pre ++ (j :: js) ++ tail).set pre.length x)
                  (pre.length + 1) xs := rfl
            _ = writeFrom ((pre ++ [x]) ++ js ++ tail) ((pre ++ [x]).length)
                  xs := by rw [hstep, hlen]
            _ = (pre ++ [x]) ++ xs ++ tail := ih (pre ++ [x]) js tail h
            _ = pre ++ (x :: xs) ++ tail := by simp [List.append_assoc]

/-- append (Eigen::VectorXd overload), src/unnamed/part_000 lines 34-48:
an empty vector is assigned the argument wholesale; otherwise the vector
is conservatively resized to n + app.size() (old entries kept, the new
slots uninitialized, modelled by placeholder zeros) and the loop writes
app(i) into position n + i.  The argument is a column vector, so the
`assertion(app.cols() == 1)` holds by construction of the embedding. -/
def appendVector (v app : List ℚ) : List ℚ :=
  let n := v.length
  if n ≤ 0 then app
  else writeFrom (v ++ List.replicate app.length 0) n app

theorem appendVector_eq (v app : List ℚ) (h : 0 < v.length) :
    appendVector v app = v ++ app := by
  have hne : ¬ v.length ≤ 0 := by omega
  simp only [appendVector, hne, if_false]
  have := writeFrom_append app v (List.replicate app.length 0) []
    (by simp)
  simpa using this

/-- C8: for a vector v of positive size n, append(v, app) has size
n + app.size(), keeps the first n entries of v, and puts app(i) at
position n + i; for an empty v the result is app itself. -/
theorem appendVector_spec (v app : List ℚ) :
    (0 < v.length →
      (appendVector v app).length = v.length + app.length ∧
      (∀ i, i < v.length → (appendVector v app).getD i 0 = v.getD i 0) ∧
      (∀ i, i < app.length →
        (appendVector v app).getD (v.length + i) 0 = app.getD i 0)) ∧
    (v.length = 0 → appendVector v app = app) := by
  constructor
  · intro h
    rw [appendVector_eq v app h]
    refine ⟨by simp, ?_, ?_⟩
    · intro i hi
      exact List.getD_append v app 0 i hi
    · intro i hi
      rw [List.getD_append_right v app 0 (v.length + i) (Nat.le_add_right _ _)]
      simp
  · intro h
    simp [appendVector, Nat.le_of_eq h]

/-- Witness for C8 at v = [1, 2], app = [3, 4]. -/
theorem appendVector_spec_witness :
    (appendVector [(1 : ℚ), 2] [3, 4]).getD ([(1 : ℚ), 2].length + 1) 0 =
      [(3 : ℚ), 4].getD 1 0 :=
  ((appendVector_spec [1, 2] [3, 4]).1 (by decide)).2.2 1 (by decide)

/-- A dynamically sized real matrix, column-major as Eigen stores it:
a row count and the list of columns. -/
structure MatrixQ where
  rows : Nat
  cols : List (List ℚ)
deriving DecidableEq

/-- append (Eigen::MatrixXd overload), src/unnamed/part_000 lines 18-32:
an empty matrix (n <= 0 and m <= 0) is assigned B wholesale; otherwise
(with `assertion(B.rows() == n)`) A is conservatively resized to
(n, m + B.cols()) — existing columns kept, new columns uninitialized —
and the loop assigns A.col(m + j) = B.col(j). -/
def appendMatrix (A B : MatrixQ) : MatrixQ :=
  let n := A.rows
  let m := A.cols.length
  if n ≤ 0 ∧ m ≤ 0 then B
  else
    { rows := n
      cols := writeFrom (A.cols ++ List.replicate B.cols.length []) m B.cols }

theorem appendMatrix_eq (A B : MatrixQ) (h : 0 < A.rows ∨ 0 < A.cols.length) :
    appendMatrix A B = { rows := A.rows, cols := A.cols ++ B.cols } := by
  have hne : ¬ (A.rows ≤ 0 ∧ A.cols.length ≤ 0) := by omega
  simp only [appendMatrix, hne, if_false]
  have := writeFrom_append B.cols A.cols
    (List.replicate B.cols.length []) [] (by simp)
  simp only [List.append_nil] at this
  rw [this]

/-- C10: for a non-empty A (a positive row or column count) and B with
matching row count, append(A, B) keeps the row count and the original m
columns of A unchanged and sets column m + j to column j of B; for an
empty A the result is B itself. -/
theorem appendMatrix_spec (A B : MatrixQ) :
    ((0 < A.rows ∨ 0 < A.cols.length) →
      (∀ c ∈ B.cols, c.length = A.rows) →
      (appendMatrix A B).rows = A.rows ∧
      (appendMatrix A B).cols.length = A.cols.length + B.cols.length ∧
      (∀ j, j < A.cols.length →
        (appendMatrix A B).cols.getD j [] = A.cols.getD j []) ∧
      (∀ j, j < B.cols.length →
        (appendMatrix A B).cols.getD (A.cols.length + j) [] =
          B.cols.getD j [])) ∧
    (A.rows = 0 ∧ A.cols.length = 0 → appendMatrix A B = B) := by
  constructor
  · intro h _hB
    rw [appendMatrix_eq A B h]
    refine ⟨rfl, by simp, ?_, ?_⟩
    · intro j hj
      exact List.getD_append A.cols B.cols [] j hj
    · intro j hj
      rw [List.getD_append_right A.cols B.cols [] (A.cols.length + j)
        (Nat.le_add_right _ _)]
      simp
  · intro h
    simp [appendMatrix, h]

/-- Witness for C10 at A = 2 x 1, B = 2 x 1 concrete matrices. -/
theorem appendMatrix_spec_witness :
    (appendMatrix { rows := 2, cols := [[1, 2]] }
        { rows := 2, cols := [[3, 4]] }).cols.getD
        (({ rows := 2, cols := [[(1 : ℚ), 2]] } : MatrixQ).cols.length + 0)
        [] =
      ({ rows := 2, cols := [[(3 : ℚ), 4]] } : MatrixQ).cols.getD 0 [] :=
  ((appendMatrix_spec { rows := 2, cols := [[1, 2]] }
      { rows := 2, cols := [[3, 4]] }).1
    (Or.inl (by decide)) (by decide)).2.2.2 0 (by decide)

namespace ScaleByAreaAction

/-- A mesh edge, mirroring the fields performAction reads: the IDs of
its two vertices and its enclosing radius. -/
structure EdgeQ where
  v0 : Nat
  v1 : Nat
  enclosingRadius : ℚ

/-- The mesh data performAction reads: its dimension, the number of its
vertices and its edges. -/
structure MeshQ where
  dimensions : Nat
  vertexCount : Nat
  edges : List EdgeQ

/-- The Scaling enumeration of ScaleByAreaAction
(SCALING_DIVIDE_BY_AREA, SCALING_MULTIPLY_BY_AREA). -/
inductive Scaling
  | divideByArea
  | multiplyByArea
deriving DecidableEq

/-- How the action terminates abnormally: the CHECK on the mesh
dimension, or the assertion relating data size and vertex count; both
abort before any target value is written. -/
inductive ActionAbort
  | checkFailed
  | assertionFailed
deriving DecidableEq

/-- One `areas[id] += r` update of the area accumulation loop. -/
def addAt (l : List ℚ) (i : Nat) (x : ℚ) : List ℚ :=
  l.set i (l.getD i 0 + x)

/-- The area accumulation loop (ScaleByAreaAction.cpp lines 31-35):
starting from a zero vector over the vertices, each edge adds its
enclosing radius to the entries of both of its vertices. -/
def computeAreas (mesh : MeshQ) : List ℚ :=
  mesh.edges.foldl
    (fun areas e =>
      addAt (addAt areas e.v0 e.enclosingRadius) e.v1 e.enclosingRadius)
    (List.replicate mesh.vertexCount 0)

/-- The scaling double loop (ScaleByAreaAction.cpp lines 38-52): for
each vertex i and component dim, combine the target value at index
i * dimensions + dim with areas[i] using `op` (division or
multiplication). -/
def scaleLoop (areas : List ℚ) (dims : Nat) (op : ℚ → ℚ → ℚ)
    (tv : List ℚ) : List ℚ :=
  (List.range areas.length).foldl
    (fun acc i =>
      (List.range dims).foldl
        (fun acc2 dim =>
          acc2.set (i * dims + dim)
            (op (acc2.getD (i * dims + dim) 0) (areas.getD i 0)))
        acc)
    tv

/-- ScaleByAreaAction::performAction (ScaleByAreaAction.cpp lines
22-53): first the CHECK on the mesh dimension — failing it aborts before
any target value is read or written — then the area computation, the
size assertion, and the scaling loop selected by `_scaling`.
`dataDimensions` is `_targetData->getDimensions()` and `targetValues`
is `_targetData->values()`. -/
def performAction (mesh : MeshQ) (scaling : Scaling) (dataDimensions : Nat)
    (targetValues : List ℚ) : Except ActionAbort (List ℚ) :=
  if mesh.dimensions = 2 then
    let areas := computeAreas mesh
    if targetValues.length / dataDimensions = areas.length then
      match scaling with
      | Scaling.divideByArea =>
          Except.ok (scaleLoop areas dataDimensions (fun x a => x / a)
            targetValues)
      | Scaling.multiplyByArea =>
          Except.ok (scaleLoop areas dataDimensions (fun x a => x * a)
            targetValues)
    else Except.error ActionAbort.assertionFailed
  else Except.error ActionAbort.checkFailed

end ScaleByAreaAction

/-- C9: for every mesh whose dimension is not 2, performAction aborts at
the CHECK defensive check before reading or writing any target value —
the call returns the checkFailed abort and produces no modified target
data, so the target data is left unchanged. -/
theorem performAction_aborts_unless_2d (mesh : ScaleByAreaAction.MeshQ)
    (scaling : ScaleByAreaAction.Scaling) (dataDimensions : Nat)
    (targetValues : List ℚ) (h : mesh.dimensions ≠ 2) :
    ScaleByAreaAction.performAction mesh scaling dataDimensions
        targetValues =
      Except.error ScaleByAreaAction.ActionAbort.checkFailed := by
  simp [ScaleByAreaAction.performAction, h]

/-- Witness for C9 at a concrete 3-dimensional mesh. -/
theorem performAction_aborts_unless_2d_witness :
    ScaleByAreaAction.performAction
        { dimensions := 3, vertexCount := 1, edges := [] }
        ScaleByAreaAction.Scaling.divideByArea 1 [5] =
      Except.error ScaleByAreaAction.ActionAbort.checkFailed :=
  performAction_aborts_unless_2d
    { dimensions := 3, vertexCount := 1, edges := [] }
    ScaleByAreaAction.Scaling.divideByArea 1 [5] (by decide)

namespace CouplingScheme

/-- Modelled from the spec: the serial-explicit coupling-scheme state
(spec sections 3, 4.4 and 8) — the coupling-scheme source is not among
the provided files, only the test configuration bug.xml is.  The state
carries the configured maximum simulated time and fixed time-step
length, the elapsed simulated time, the number of committed windows, and
counters of the performed Forces and Displacements exchanges. -/
structure SerialExplicitState where
  maxTime : ℚ
  timestepLength : ℚ
  time : ℚ
  windowsCompleted : Nat
  forcesExchanges : Nat
  displacementsExchanges : Nat
deriving DecidableEq

/-- Modelled from the spec: isCouplingOngoing() is false once elapsed
simulated time reaches the configured maximum (no maximum window count
is configured in bug.xml). -/
def isCouplingOngoing (s : SerialExplicitState) : Bool :=
  decide (s.time < s.maxTime)

/-- Modelled from the spec: one advance() of an explicit scheme performs
each declared Exchange exactly once in declared order — here Forces
(first to second participant) then Displacements (second to first) —
and then commits the window, advancing time by the fixed step. -/
def advance (s : SerialExplicitState) : SerialExplicitState :=
  { s with
    forcesExchanges := s.forcesExchanges + 1
    displacementsExchanges := s.displacementsExchanges + 1
    time := s.time + s.timestepLength
    windowsCompleted := s.windowsCompleted + 1 }

/-- Modelled from the spec: the driving solver loop — while
isCouplingOngoing() holds, call advance(); fuel bounds the number of
loop iterations inspected. -/
def drive : Nat → SerialExplicitState → SerialExplicitState
  | 0, s => s
  | fuel + 1, s => if isCouplingOngoing s then drive fuel (advance s) else s

/-- Modelled from the spec: the scheme configured by
src/precice/tests/bug.xml — serial-explicit, max-time 2.0e-5, fixed
timestep-length 1.0e-5, exchanging Forces and then Displacements —
right after initialize(). -/
def bugXmlInitial : SerialExplicitState :=
  { maxTime := 2 / 100000
    timestepLength := 1 / 100000
    time := 0
    windowsCompleted := 0
    forcesExchanges := 0
    displacementsExchanges := 0 }

end CouplingScheme

/-- C4: under the bug.xml serial-explicit configuration (max-time
2.0e-5, fixed timestep-length 1.0e-5), the driving loop executes exactly
2 time windows, each performing exactly one Forces and one Displacements
exchange, isCouplingOngoing() is still true after the first window
commits, and false immediately after the second window commits. -/
theorem bugXml_two_windows :
    (CouplingScheme.drive 10 CouplingScheme.bugXmlInitial).windowsCompleted
        = 2 ∧
      (CouplingScheme.drive 10 CouplingScheme.bugXmlInitial).forcesExchanges
        = 2 ∧
      (CouplingScheme.drive 10
          CouplingScheme.bugXmlInitial).displacementsExchanges = 2 ∧
      CouplingScheme.isCouplingOngoing
          (CouplingScheme.advance CouplingScheme.bugXmlInitial) = true ∧
      CouplingScheme.isCouplingOngoing
          (CouplingScheme.advance
            (CouplingScheme.advance CouplingScheme.bugXmlInitial)) = false := by
  have h0 : CouplingScheme.isCouplingOngoing CouplingScheme.bugXmlInitial
      = true := by
    simp only [CouplingScheme.isCouplingOngoing, decide_eq_true_eq]
    show (0 : ℚ) < 2 / 100000
    norm_num
  have h1 : CouplingScheme.isCouplingOngoing
      (CouplingScheme.advance CouplingScheme.bugXmlInitial) = true := by
    simp only [CouplingScheme.isCouplingOngoing, decide_eq_true_eq]
    show (0 : ℚ) + 1 / 100000 < 2 / 100000
    norm_num
  have h2 : CouplingScheme.isCouplingOngoing
      (CouplingScheme.advance
        (CouplingScheme.advance CouplingScheme.bugXmlInitial)) = false := by
    simp only [CouplingScheme.isCouplingOngoing, decide_eq_false_iff_not]
    show ¬ ((0 : ℚ) + 1 / 100000 + 1 / 100000 < 2 / 100000)
    norm_num
  have hd : CouplingScheme.drive 10 CouplingScheme.bugXmlInitial =
      CouplingScheme.advance
        (CouplingScheme.advance CouplingScheme.bugXmlInitial) := by
    show (if CouplingScheme.isCouplingOngoing CouplingScheme.bugXmlInitial
        then CouplingScheme.drive 9
          (CouplingScheme.advance CouplingScheme.bugXmlInitial)
        else CouplingScheme.bugXmlInitial) = _
    rw [h0, if_pos rfl]
    show (if CouplingScheme.isCouplingOngoing
          (CouplingScheme.advance CouplingScheme.bugXmlInitial)
        then CouplingScheme.drive 8
          (CouplingScheme.advance
            (CouplingScheme.advance CouplingScheme.bugXmlInitial))
        else CouplingScheme.advance CouplingScheme.bugXmlInitial) = _
    rw [h1, if_pos rfl]
    show (if CouplingScheme.isCouplingOngoing
          (CouplingScheme.advance
            (CouplingScheme.advance CouplingScheme.bugXmlInitial))
        then CouplingScheme.drive 7
          (CouplingScheme.advance
            (CouplingScheme.advance
              (CouplingScheme.advance CouplingScheme.bugXmlInitial)))
        else CouplingScheme.advance
          (CouplingScheme.advance CouplingScheme.bugXmlInitial)) = _
    rw [h2, if_neg Bool.false_ne_true]
  exact ⟨by rw [hd]; rfl, by rw [hd]; rfl, by rw [hd]; rfl, h1, h2⟩

namespace ImplicitScheme

/-- Modelled from the spec: the iteration loop of one implicit coupling
window (spec section 4.4) — the implicit coupling-scheme source is not
among the provided files.  `residual k` is the convergence-measure
residual evaluated after iteration k (k counted from 1); `done` is the
number of iterations already performed and the second argument the
remaining iteration budget.  The loop returns how many iterations were
performed and whether it stopped because the tolerance was met (false
means the budget was exhausted: ConvergenceFailure). -/
def iterateWindow (residual : Nat → ℚ) (tol : ℚ) :
    Nat → Nat → Nat × Bool
  | done, 0 => (done, false)
  | done, rem + 1 =>
      if residual (done + 1) ≤ tol then (done + 1, true)
      else iterateWindow residual tol (done + 1) rem

/-- Modelled from the spec: run one implicit window with convergence
tolerance `tol`, bounded by the configured maximum iteration count. -/
def runWindow (residual : Nat → ℚ) (tol : ℚ) (maxIterations : Nat) :
    Nat × Bool :=
  iterateWindow residual tol 0 maxIterations

theorem iterateWindow_spec (residual : Nat → ℚ) (tol : ℚ) :
    ∀ rem done,
      done ≤ (iterateWindow residual tol done rem).1 ∧
      (iterateWindow residual tol done rem).1 ≤ done + rem ∧
      ((iterateWindow residual tol done rem).2 = true →
        residual (iterateWindow residual tol done rem).1 ≤ tol) ∧
      ((iterateWindow residual tol done rem).2 = false →
        (iterateWindow residual tol done rem).1 = done + rem) := by
  intro rem
  induction rem with
  | zero =>
      intro done
      exact ⟨Nat.le_refl _, Nat.le_refl _, fun h => by simp [iterateWindow] at h,
        fun _ => rfl⟩
  | succ r ih =>
      intro done
      by_cases hc : residual (done + 1) ≤ tol
      · have he : iterateWindow residual tol done (r + 1) = (done + 1, true) := by
          simp only [iterateWindow, hc, if_true]
        rw [he]
        exact ⟨Nat.le_succ _, by omega, fun _ => hc, fun h => by simp at h⟩
      · simp only [iterateWindow, hc, if_false]
        rcases ih (done + 1) with ⟨ha, hb, hcv, hf⟩
        exact ⟨by omega, by omega, hcv, fun h => by rw [hf h]; omega⟩

end ImplicitScheme

/-- C5: an implicit window with tolerance tol and a positive configured
maximum iteration count N performs at most N iterations and terminates
either converged, in a state whose residual is within tol, or — reported
as ConvergenceFailure — non-converged after exactly N iterations. -/
theorem implicitWindow_iteration_bound (residual : Nat → ℚ) (tol : ℚ)
    (N : Nat) (hN : 0 < N) :
    (ImplicitScheme.runWindow residual tol N).1 ≤ N ∧
      ((ImplicitScheme.runWindow residual tol N).2 = true →
        residual (ImplicitScheme.runWindow residual tol N).1 ≤ tol) ∧
      ((ImplicitScheme.runWindow residual tol N).2 = false →
        (ImplicitScheme.runWindow residual tol N).1 = N) := by
  rcases ImplicitScheme.iterateWindow_spec residual tol N 0 with ⟨_, hb, hc, hf⟩
  exact ⟨by simpa using hb, hc, fun h => by simpa using hf h⟩

/-- Witness for C5: a residual sequence that is constantly 0 meets
tolerance 0 at the first of 3 allowed iterations. -/
theorem implicitWindow_iteration_bound_witness :
    (ImplicitScheme.runWindow (fun _ => 0) 0 3).1 ≤ 3 ∧
      ((ImplicitScheme.runWindow (fun _ => 0) 0 3).2 = true →
        (fun _ => (0 : ℚ)) (ImplicitScheme.runWindow (fun _ => 0) 0 3).1 ≤ 0) ∧
      ((ImplicitScheme.runWindow (fun _ => 0) 0 3).2 = false →
        (ImplicitScheme.runWindow (fun _ => 0) 0 3).1 = 3) :=
  implicitWindow_iteration_bound (fun _ => 0) 0 3 (by decide)

namespace ImplicitScheme

/-- Modelled from the spec: the CouplingState — the set of all exchanged
Data values of the current iteration of the current window (spec
section 3); one list of values per declared Exchange. -/
structure CouplingState where
  exchangedValues : List (List ℚ)
deriving DecidableEq

/-- Modelled from the spec: the per-window state of an implicit scheme:
the current CouplingState, the checkpoint taken at window start (only
the exchanged CouplingState is captured), and the iteration counter. -/
structure WindowState where
  couplingState : CouplingState
  checkpoint : Option CouplingState
  iteration : Nat
deriving DecidableEq

/-- Modelled from the spec: at window start the scheme captures the
exchanged CouplingState as the checkpoint payload. -/
def saveCheckpoint (w : WindowState) : WindowState :=
  { w with checkpoint := some w.couplingState }

/-- Modelled from the spec: after a non-converged iteration the
CouplingState is rolled back to the checkpoint taken at window start
(the checkpoint itself is kept for further rollbacks). -/
def restoreCheckpoint (w : WindowState) : WindowState :=
  { w with couplingState := w.checkpoint.getD w.couplingState }

/-- Modelled from the spec: one implicit iteration — the declared
exchanges and the acceleration step produce the next CouplingState
iterate (`step` collects both), and the iteration counter advances. -/
def performIteration (step : CouplingState → CouplingState)
    (w : WindowState) : WindowState :=
  { w with couplingState := step w.couplingState
           iteration := w.iteration + 1 }

/-- Modelled from the spec: k successive implicit iterations. -/
def iterateK (step : CouplingState → CouplingState) :
    Nat → WindowState → WindowState
  | 0, w => w
  | k + 1, w => iterateK step k (performIteration step w)

theorem iterateK_checkpoint (step : CouplingState → CouplingState) :
    ∀ k w, (iterateK step k w).checkpoint = w.checkpoint := by
  intro k
  induction k with
  | zero => intro w; rfl
  | succ n ih => intro w; exact ih (performIteration step w)

end ImplicitScheme

/-- C6: in an implicit window started by capturing the checkpoint,
restoring after any number k of iterations — each mutating the
CouplingState arbitrarily — reproduces exactly the CouplingState values
captured at window start (lossless), and restoring twice equals
restoring once (idempotent). -/
theorem checkpoint_rollback_lossless_idempotent
    (w : ImplicitScheme.WindowState)
    (step : ImplicitScheme.CouplingState → ImplicitScheme.CouplingState)
    (k : Nat) :
    (ImplicitScheme.restoreCheckpoint
        (ImplicitScheme.iterateK step k
          (ImplicitScheme.saveCheckpoint w))).couplingState =
      (ImplicitScheme.saveCheckpoint w).couplingState ∧
    ImplicitScheme.restoreCheckpoint
        (ImplicitScheme.restoreCheckpoint
          (ImplicitScheme.iterateK step k
            (ImplicitScheme.saveCheckpoint w))) =
      ImplicitScheme.restoreCheckpoint
        (ImplicitScheme.iterateK step k
          (ImplicitScheme.saveCheckpoint w)) := by
  have hcp : (ImplicitScheme.iterateK step k
      (ImplicitScheme.saveCheckpoint w)).checkpoint =
      some w.couplingState :=
    ImplicitScheme.iterateK_checkpoint step k (ImplicitScheme.saveCheckpoint w)
  constructor
  · have hs : (ImplicitScheme.saveCheckpoint w).couplingState =
        w.couplingState := rfl
    rw [hs]
    simp only [ImplicitScheme.restoreCheckpoint, hcp, Option.getD_some]
  · simp [ImplicitScheme.restoreCheckpoint, hcp]

namespace M2N

/-- Modelled from the spec: a VertexDistribution — per rank of one
participant group, the mapping from local vertex index to global vertex
ID, exchanged once at connection time and cached (spec sections 3 and
4.3); the M2N coordinator source is not among the provided files. -/
abbrev VertexDistribution := List (List Nat)

/-- Modelled from the spec: the contiguous buffer the gather-scatter
leader assembles — all local vertex values of the sending side, in
rank-major local-index order, where `val g` is the field value at the
source vertex with global ID g. -/
def flatBuffer (distSend : VertexDistribution) (val : Nat → ℚ) : List ℚ :=
  distSend.join.map val

/-- Modelled from the spec: the receiving leader resolves one of its
global vertex IDs against the cached sender distribution (the wire
payload carries no header, so the position of each value in the buffer
is derived from the cached distribution). -/
def lookupGlobal (g : Nat) : List Nat → List ℚ → Option ℚ
  | [], _ => none
  | _ :: _, [] => none
  | i :: is, x :: xs => if i = g then some x else lookupGlobal g is xs

/-- Modelled from the spec: gather-scatter receive — the sending leader
gathers all local values into one contiguous buffer, exchanges it
leader-to-leader, and the receiving side scatters: each receiving rank
obtains, for each of its local vertices, the buffer value at the
position of that vertex's global ID in the sender distribution. -/
def gatherScatterReceive (distSend distRecv : VertexDistribution)
    (val : Nat → ℚ) : List (List (Option ℚ)) :=
  distRecv.map (fun ids =>
    ids.map (fun g => lookupGlobal g distSend.join (flatBuffer distSend val)))

/-- First delivered value among the per-channel results of one
destination vertex. -/
def firstSome : List (Option ℚ) → Option ℚ
  | [] => none
  | some x :: _ => some x
  | none :: rest => firstSome rest

/-- Modelled from the spec: point-to-point receive — each receiving rank
computes from the cached VertexDistribution which remote ranks own
overlapping vertices and exchanges with them directly over one channel
per overlapping pair; a destination vertex with global ID g obtains the
value `val g` from any source rank owning g. -/
def p2pReceive (distSend distRecv : VertexDistribution)
    (val : Nat → ℚ) : List (List (Option ℚ)) :=
  distRecv.map (fun ids =>
    ids.map (fun g =>
      firstSome (distSend.map
        (fun sendIds => if g ∈ sendIds then some (val g) else none))))

theorem lookupGlobal_map (val : Nat → ℚ) (g : Nat) :
    ∀ ids : List Nat, g ∈ ids →
      lookupGlobal g ids (ids.map val) = some (val g) := by
  intro ids
  induction ids with
  | nil => intro h; cases h
  | cons i is ih =>
      intro h
      by_cases hg : i = g
      · subst hg
        simp [lookupGlobal]
      · have : g ∈ is := by
          cases h with
          | head => exact absurd rfl hg
          | tail _ h2 => exact h2
        simp only [List.map_cons, lookupGlobal, hg, if_false]
        exact ih this

theorem firstSome_mem (val : Nat → ℚ) (g : Nat) :
    ∀ L : List (List Nat), (∃ l ∈ L, g ∈ l) →
      firstSome (L.map (fun s => if g ∈ s then some (val g) else none)) =
        some (val g) := by
  intro L
  induction L with
  | nil => rintro ⟨l, hl, _⟩; cases hl
  | cons s ss ih =>
      rintro ⟨l, hl, hg⟩
      by_cases hs : g ∈ s
      · simp [firstSome, hs]
      · have hl2 : l ∈ ss := by
          cases hl with
          | head => exact absurd hg hs
          | tail _ h2 => exact h2
        simp only [List.map_cons, hs, if_false, firstSome]
        exact ih ⟨l, hl2, hg⟩

end M2N

/-- C7: with a shared VertexDistribution in which every destination
global vertex ID is owned by some source rank, both the gather-scatter
and the point-to-point strategy deliver, at every destination rank and
local vertex, exactly the value sent at the source vertex with the same
global vertex ID — for any rank counts on the two sides. -/
theorem m2n_roundtrip (distSend distRecv : M2N.VertexDistribution)
    (val : Nat → ℚ)
    (hcover : ∀ g ∈ distRecv.join, g ∈ distSend.join) :
    M2N.gatherScatterReceive distSend distRecv val =
        distRecv.map (fun ids => ids.map (fun g => some (val g))) ∧
      M2N.p2pReceive distSend distRecv val =
        distRecv.map (fun ids => ids.map (fun g => some (val g))) := by
  constructor
  · apply List.map_congr_left
    intro ids hids
    apply List.map_congr_left
    intro g hg
    have hmem : g ∈ distSend.join :=
      hcover g (List.mem_join.mpr ⟨ids, hids, hg⟩)
    exact M2N.lookupGlobal_map val g distSend.join hmem
  · apply List.map_congr_left
    intro ids hids
    apply List.map_congr_left
    intro g hg
    have hmem : g ∈ distSend.join :=
      hcover g (List.mem_join.mpr ⟨ids, hids, hg⟩)
    exact M2N.firstSome_mem val g distSend (List.mem_join.mp hmem)

/-- Witness for C7: two source ranks owning vertices 0, 1 and 2, three
destination ranks holding them in a different arrangement. -/
theorem m2n_roundtrip_witness :
    M2N.gatherScatterReceive [[0, 1], [2]] [[2, 0], [1]]
        (fun g => (g : ℚ)) =
      ([[2, 0], [1]] : M2N.VertexDistribution).map
        (fun ids => ids.map (fun g => some ((g : ℚ)))) ∧
      M2N.p2pReceive [[0, 1], [2]] [[2, 0], [1]] (fun g => (g : ℚ)) =
        ([[2, 0], [1]] : M2N.VertexDistribution).map
          (fun ids => ids.map (fun g => some ((g : ℚ)))) :=
  m2n_roundtrip [[0, 1], [2]] [[2, 0], [1]] (fun g => (g : ℚ))
    (by decide)
